import Mathlib

/-!
# The `/todos` service of `main.go`

A shallow embedding of `main.go`: the two request handlers, the method
dispatcher registered on `/todos`, the connection-descriptor construction of
`initDB`, `getEnv`, and the startup sequence of `main` up to the seed row.

The collaborators the program talks to are made explicit:

* the relational store is a list of rows plus the next value of the `SERIAL`
  sequence; every statement the program sends takes an optional injected
  error, which stands for any failure of the driver or the engine;
* the `http.ResponseWriter` keeps the header map, the status line once it is
  committed, the header as committed, and the body written so far;
* `encoding/json` decoding of the request body is a parameter of the POST
  handler; JSON encoding produces a document value.
-/

set_option autoImplicit false

namespace TodoService

/-! ## Data model -/

/-- Text of a Go `error` value, as `%v` prints it. -/
abbrev Err := String

/-- The `Todo` struct (`main.go` lines 15-19). -/
structure Todo where
  ID : Int
  Task : String
  Completed : Bool
  deriving DecidableEq, Repr

/-- The zero value of `Todo`, the content of `var newTodo Todo`. -/
def Todo.zero : Todo := ⟨0, "", false⟩

/-- A Go slice value: `none` is the nil slice of `var todos []Todo`. -/
abbrev Slice (α : Type) := Option (List α)

/-- Go `append(s, x)`: appending to the nil slice allocates a one-element slice. -/
def goAppend {α : Type} : Slice α → α → Slice α
  | none, x => some [x]
  | some xs, x => some (xs ++ [x])

/-! ## JSON documents written by the encoder -/

/-- Scalar JSON values. -/
inductive JScalar
  | null
  | bool (b : Bool)
  | num (n : Int)
  | str (s : String)
  deriving DecidableEq, Repr

/-- The JSON documents this program can emit: a scalar, an object of scalars, or
an array of such objects. -/
inductive Json
  | scalar (v : JScalar)
  | object (fields : List (String × JScalar))
  | array (elems : List (List (String × JScalar)))
  deriving DecidableEq, Repr

/-- Fields of the JSON object of a `Todo`, keyed by the struct tags `id`, `task`,
`completed`, in declaration order. -/
def todoFields (t : Todo) : List (String × JScalar) :=
  [("id", .num t.ID), ("task", .str t.Task), ("completed", .bool t.Completed)]

/-- The document `json.Encoder.Encode` writes for a `Todo`. -/
def encodeTodo (t : Todo) : Json := .object (todoFields t)

/-- The document `json.Encoder.Encode` writes for a `[]Todo`: the nil slice is
`null`, any other slice is an array. -/
def encodeTodos : Slice Todo → Json
  | none => .scalar .null
  | some ts => .array (ts.map todoFields)

/-! ## The response writer -/

/-- One write to the response body. -/
inductive Chunk
  /-- The line `fmt.Fprintln(w, msg)` of `http.Error`. -/
  | line (msg : String)
  /-- One document written by `json.Encoder.Encode`. -/
  | json (doc : Json)
  deriving DecidableEq, Repr

/-- State of an `http.ResponseWriter`. -/
structure ResponseWriter where
  /-- The header map returned by `w.Header()`. -/
  header : List (String × String)
  /-- The status code once the header has been committed. -/
  status : Option Nat
  /-- The header map as it was when the header was committed. -/
  sent : List (String × String)
  /-- The chunks written to the body, oldest first. -/
  body : List Chunk
  deriving DecidableEq, Repr

namespace ResponseWriter

/-- The writer a handler receives: nothing set, nothing sent. -/
def fresh : ResponseWriter := ⟨[], none, [], []⟩

/-- Go `w.Header().Set(k, v)`. -/
def setHeader (w : ResponseWriter) (k v : String) : ResponseWriter :=
  { w with header := (k, v) :: w.header.filter (fun p => p.1 != k) }

/-- Go `w.Header().Del(k)`. -/
def delHeader (w : ResponseWriter) (k : String) : ResponseWriter :=
  { w with header := w.header.filter (fun p => p.1 != k) }

/-- Go `w.WriteHeader(code)`: the first call commits status and header, a later
call is superfluous and changes nothing. -/
def WriteHeader (w : ResponseWriter) (code : Nat) : ResponseWriter :=
  match w.status with
  | some _ => w
  | none => { w with status := some code, sent := w.header }

/-- Go `w.Write(..)`: commits the header with status 200 when `WriteHeader` has not
been called, then appends to the body. -/
def Write (w : ResponseWriter) (c : Chunk) : ResponseWriter :=
  let w1 := w.WriteHeader 200
  { w1 with body := w1.body ++ [c] }

/-- The `Content-Type` the client receives. -/
def contentType (w : ResponseWriter) : Option String :=
  w.sent.lookup "Content-Type"

end ResponseWriter

/-- Go `http.Error(w, msg, code)`: plain-text headers, `WriteHeader(code)`, then the
message as one line. -/
def httpError (w : ResponseWriter) (msg : String) (code : Nat) : ResponseWriter :=
  let w1 := w.delHeader "Content-Length"
  let w2 := w1.setHeader "Content-Type" "text/plain; charset=utf-8"
  let w3 := w2.setHeader "X-Content-Type-Options" "nosniff"
  (w3.WriteHeader code).Write (.line msg)

/-- Go `json.NewEncoder(w).Encode(v)` with the document of `v` already computed. The
encoder hands the document to `w.Write`, which commits the header (status 200 when
`WriteHeader` has not been called) before it writes. With an injected error that
write fails: the header is committed, no document reaches the body, and the error
is returned; otherwise the document is written. -/
def jsonEncode (w : ResponseWriter) (doc : Json) : Option Err → ResponseWriter × Option Err
  | some e => (w.WriteHeader 200, some e)
  | none => (w.Write (.json doc), none)

/-! ## The store -/

/-- A row of `todos` as the queries of the program see it (`created_at` is never
selected). -/
structure Row where
  id : Int
  task : String
  completed : Bool
  deriving DecidableEq, Repr

/-- The `Todo` that `rows.Scan(&todo.ID, &todo.Task, &todo.Completed)` fills from a
row. -/
def Row.toTodo (r : Row) : Todo := ⟨r.id, r.task, r.completed⟩

/-- The table `todos` with its `SERIAL` sequence. -/
structure Store where
  rows : List Row
  nextId : Int
  deriving DecidableEq, Repr

/-- Ids are assigned serially and never reused: the id of every row is below the next
sequence value. -/
def Store.WF (s : Store) : Prop := ∀ r ∈ s.rows, r.id < s.nextId

/-- The store of a fresh database after the schema DDL. -/
def Store.empty : Store := ⟨[], 1⟩

/-- The statements the program sends to the store. -/
inductive Stmt
  /-- The query `SELECT id, task, completed FROM todos`. -/
  | selectTodos
  /-- The statement `INSERT INTO todos (task, completed) VALUES ($1, $2) RETURNING id`. -/
  | insertReturning (task : String) (completed : Bool)
  /-- The query `SELECT COUNT(*) FROM todos`. -/
  | countTodos
  /-- The statement `INSERT INTO todos (task, completed) VALUES ($1, $2)`. -/
  | insertExec (task : String) (completed : Bool)
  /-- The schema DDL of `initSchema`. -/
  | schemaDDL
  deriving DecidableEq, Repr

/-- The error of the store for a task longer than `VARCHAR(255)`. -/
def tooLong : Err := "pq: value too long for type character varying(255)"

/-- An insert into `todos (task, completed)`. It fails with the injected error,
or when the task does not fit `VARCHAR(255)`; otherwise the row is appended under
the next sequence value, which is returned. -/
def Store.insert (s : Store) (task : String) (completed : Bool) :
    Option Err → Except Err Int × Store
  | some e => (.error e, s)
  | none =>
    if task.length > 255 then (.error tooLong, s)
    else (.ok s.nextId, ⟨s.rows ++ [⟨s.nextId, task, completed⟩], s.nextId + 1⟩)

/-- Ways the `SELECT` of `getTodosHandler` can fail. -/
inductive SelectFault
  /-- Error returned by `db.Query`. -/
  | query (e : Err)
  /-- Error returned by `rows.Scan` on the row with index `i`. -/
  | scan (i : Nat) (e : Err)
  /-- Iteration stops after `k` rows and `rows.Err()` returns `e`. -/
  | iter (k : Nat) (e : Err)
  deriving DecidableEq, Repr

/-- What `*sql.Rows` delivers: the outcome of `Scan` for each row `Next()` yields,
and the value of `rows.Err()` once `Next()` has returned false. -/
structure Cursor where
  scans : List (Except Err Todo)
  err : Option Err

/-- The query `SELECT id, task, completed FROM todos`: all rows in the order of
the store, unless a fault is injected. -/
def Store.select (s : Store) : Option SelectFault → Except Err Cursor
  | none => .ok ⟨s.rows.map (fun r => .ok r.toTodo), none⟩
  | some (.query e) => .error e
  | some (.scan i e) => .ok ⟨(s.rows.map (fun r => .ok r.toTodo)).set i (.error e), none⟩
  | some (.iter k e) => .ok ⟨(s.rows.take k).map (fun r => .ok r.toTodo), some e⟩

/-- The query `SELECT COUNT(*) FROM todos`. -/
def Store.count (s : Store) : Option Err → Except Err Int
  | some e => .error e
  | none => .ok s.rows.length

/-! ## The process state -/

/-- What the handlers and `main` act on: the store behind the pool `db`, the
statements sent to it so far, and the lines passed to `log`. -/
structure World where
  store : Store
  issued : List Stmt
  log : List String
  deriving DecidableEq, Repr

/-- Record a statement as sent. -/
def World.issue (σ : World) (q : Stmt) : World :=
  { σ with issued := σ.issued ++ [q] }

/-- Go `log.Printf` / `log.Println` with the message already formatted. -/
def World.logf (σ : World) (msg : String) : World :=
  { σ with log := σ.log ++ [msg] }

/-- The errors injected into one request. -/
structure Faults where
  select : Option SelectFault
  insert : Option Err
  encode : Option Err
  deriving DecidableEq, Repr

/-- No error injected. -/
def Faults.clean : Faults := ⟨none, none, none⟩

/-- An HTTP request as the handlers read it. -/
structure Request where
  Method : String
  Body : String
  deriving DecidableEq, Repr

/-- Go `json.NewDecoder(r.Body).Decode(&newTodo)`: from the body and the current
content of the target, either an error or the target after decoding. -/
abbrev Decoder := String → Todo → Except Err Todo

/-! ## The handlers -/

/-- The loop `for rows.Next() { ... rows.Scan ... todos = append(todos, todo) }` of
`getTodosHandler`: it stops at the first failing `Scan`. -/
def scanLoop : List (Except Err Todo) → Slice Todo → Except Err (Slice Todo)
  | [], acc => .ok acc
  | .error e :: _, _ => .error e
  | .ok t :: rest, acc => scanLoop rest (goAppend acc t)

/-- Go `getTodosHandler` (`main.go` lines 26-57). -/
def getTodosHandler (f : Faults) (w : ResponseWriter) (σ : World) : ResponseWriter × World :=
  let σ1 := σ.issue .selectTodos
  match σ1.store.select f.select with
  | .error e =>
    (httpError w "Failed to fetch todos" 500, σ1.logf ("Error querying todos: " ++ e))
  | .ok cur =>
    match scanLoop cur.scans none with
    | .error e =>
      (httpError w "Failed to process todos" 500, σ1.logf ("Error scanning todo row: " ++ e))
    | .ok todos =>
      match cur.err with
      | some e =>
        (httpError w "Error processing todos" 500,
          σ1.logf ("Error after scanning todos: " ++ e))
      | none =>
        let w1 := w.setHeader "Content-Type" "application/json"
        match jsonEncode w1 (encodeTodos todos) f.encode with
        | (w2, some e) =>
          (httpError w2 "Failed to encode todos" 500, σ1.logf ("Error encoding todos: " ++ e))
        | (w2, none) => (w2, σ1)

/-- Go `%+v` of a `Todo`. -/
def Todo.render (t : Todo) : String :=
  "\x7bID:" ++ toString t.ID ++ " Task:" ++ t.Task ++ " Completed:" ++ toString t.Completed
    ++ "\x7d"

/-- Go `createTodoHandler` (`main.go` lines 60-87). -/
def createTodoHandler (dec : Decoder) (f : Faults) (w : ResponseWriter) (r : Request)
    (σ : World) : ResponseWriter × World :=
  match dec r.Body Todo.zero with
  | .error e =>
    (httpError w "Invalid request body" 400, σ.logf ("Error decoding request body: " ++ e))
  | .ok newTodo =>
    let task := newTodo.Task ++ " (intercepted locally)"
    let res := σ.store.insert task newTodo.Completed f.insert
    let σ1 : World := { (σ.issue (.insertReturning task newTodo.Completed)) with store := res.2 }
    match res.1 with
    | .error e =>
      (httpError w "Failed to create todo" 500, σ1.logf ("Error inserting todo: " ++ e))
    | .ok id =>
      let created : Todo := { newTodo with ID := id }
      let w1 := w.setHeader "Content-Type" "application/json"
      let w2 := w1.WriteHeader 201
      match jsonEncode w2 (encodeTodo created) f.encode with
      | (w3, some e) =>
        (httpError w3 "Failed to encode created todo" 500,
          (σ1.logf ("Error encoding created todo: " ++ e)).logf
            ("Created todo: " ++ created.render))
      | (w3, none) => (w3, σ1.logf ("Created todo: " ++ created.render))

/-- The handler `main` registers on `/todos` (`main.go` lines 169-178). -/
def todosHandler (dec : Decoder) (f : Faults) (w : ResponseWriter) (r : Request)
    (σ : World) : ResponseWriter × World :=
  if r.Method = "GET" then getTodosHandler f w σ
  else if r.Method = "POST" then createTodoHandler dec f w r σ
  else (httpError w "Method not allowed" 405, σ)

/-! ## Configuration and startup -/

/-- The process environment: the value of each variable that is set. -/
abbrev Env := String → Option String

/-- Go `os.Getenv`: the value, or the empty string when the variable is unset. -/
def osGetenv (env : Env) (key : String) : String :=
  match env key with
  | some v => v
  | none => ""

/-- Go `getEnv` (`main.go` lines 121-126): the value `os.LookupEnv` finds, else the
fallback. -/
def getEnv (env : Env) (key fallback : String) : String :=
  match env key with
  | some value => value
  | none => fallback

/-- The descriptor `initDB` passes to `sql.Open` (`main.go` lines 91-105). -/
def connStr (env : Env) : String :=
  let host := getEnv env "POSTGRES_HOST" "localhost"
  let port := getEnv env "POSTGRES_PORT" "5432"
  let user := getEnv env "POSTGRES_USER" "postgres"
  let password := getEnv env "POSTGRES_PASSWORD" ""
  let dbname := getEnv env "POSTGRES_DBNAME" "postgres"
  let assembled := "host=" ++ host ++ " port=" ++ port ++ " user=" ++ user ++ " password="
    ++ password ++ " dbname=" ++ dbname ++ " sslmode=disable"
  let dbURL := osGetenv env "DATABASE_URL"
  if dbURL ≠ "" then dbURL else assembled

/-- The handle `sql.Open("postgres", dsn)` returns. -/
structure Pool where
  dsn : String
  deriving DecidableEq, Repr

/-- The errors injected into one run of `main`. -/
structure StartupFaults where
  sqlOpen : Option Err
  ping : Option Err
  ddl : Option Err
  count : Option Err
  seed : Option Err
  deriving DecidableEq, Repr

/-- Go `initDB` (`main.go` lines 90-118). -/
def initDB (env : Env) (f : StartupFaults) (σ : World) : Except Err Pool × World :=
  match f.sqlOpen with
  | some e => (.error e, σ)
  | none =>
    match f.ping with
    | some e => (.error e, σ)
    | none => (.ok ⟨connStr env⟩, σ.logf "Successfully connected to PostgreSQL")

/-- Go `initSchema` (`main.go` lines 129-142): both statements are `IF NOT EXISTS`, so
they leave the rows and the sequence of an existing table alone. -/
def initSchema (f : StartupFaults) (σ : World) : Option Err × World :=
  (f.ddl, σ.issue .schemaDDL)

/-- The seed step of `main` (`main.go` lines 158-167). -/
def seedStep (f : StartupFaults) (σ : World) : World :=
  let σ1 := σ.issue .countTodos
  match σ1.store.count f.count with
  | .error _ => σ1
  | .ok count =>
    if count = 0 then
      let res := σ1.store.insert "Learn Go" false f.seed
      let σ2 : World := { (σ1.issue (.insertExec "Learn Go" false)) with store := res.2 }
      match res.1 with
      | .error e => σ2.logf ("Failed to insert sample todo: " ++ e)
      | .ok _ => σ2.logf "Added sample todo"
    else σ1

/-- How `main` leaves its startup phase. -/
inductive Startup
  /-- The call `log.Fatalf` ended the process with this message. -/
  | fatal (msg : String)
  /-- The handler is registered and the listeners are started. -/
  | serving
  deriving DecidableEq, Repr

/-- Go `main` up to the registration of the handler (`main.go` lines 144-167). -/
def startup (env : Env) (f : StartupFaults) (σ : World) : Startup × World :=
  match initDB env f σ with
  | (.error e, σ1) => (.fatal ("Failed to initialize database: " ++ e), σ1)
  | (.ok _, σ1) =>
    match initSchema f σ1 with
    | (some e, σ2) => (.fatal ("Failed to initialize schema: " ++ e), σ2)
    | (none, σ2) => (.serving, seedStep f σ2)

/-- Successive runs of `main` against the same store, one per entry. -/
def startups (env : Env) : List StartupFaults → World → World
  | [], σ => σ
  | f :: fs, σ => startups env fs (startup env f σ).2

/-- Number of seed inserts sent to the store so far. -/
def seedInserts (σ : World) : Nat :=
  σ.issued.count (.insertExec "Learn Go" false)

/-- The row the seed insert adds to an empty table. -/
def seedRow (s : Store) : Row := ⟨s.nextId, "Learn Go", false⟩

/-- A run of `main` that reaches the seed step and whose count query succeeds. -/
def StartupFaults.countsRows (f : StartupFaults) : Prop :=
  f.sqlOpen = none ∧ f.ping = none ∧ f.ddl = none ∧ f.count = none

/-! ## Sample inputs -/

/-- The slice the scan loop builds from a list of rows that all scan. -/
def sliceOf {α : Type} : List α → Slice α
  | [] => none
  | xs => some xs

/-- A decoder for five sample bodies, answering as `encoding/json` does: the empty
object sets no field; a todo object with an `id` sets all three; the JSON value
`null` has no effect on a struct and is no error; of an object followed by other
text `Decode` reads the object and leaves the rest of the stream unread; text that
is not JSON is an error. -/
def sampleDecoder : Decoder := fun body t =>
  if body = "\x7b\x7d" then .ok t
  else if body = "\x7b\"id\":9,\"task\":\"Write tests\",\"completed\":true\x7d" then
    .ok ⟨9, "Write tests", true⟩
  else if body = "null" then .ok t
  else if body = "\x7b\"task\":\"a\"\x7d trailing garbage" then .ok ⟨t.ID, "a", t.Completed⟩
  else .error "invalid character in literal"

/-- JSON whitespace: space, tab, line feed, carriage return. -/
def isJsonSpace (c : Char) : Bool :=
  c = Char.ofNat 32 || c = Char.ofNat 9 || c = Char.ofNat 10 || c = Char.ofNat 13

/-- Whether the first character after leading whitespace is the opening brace, as it
is in every JSON object text. -/
def startsObject (body : String) : Bool :=
  match body.toList.dropWhile isJsonSpace with
  | [] => false
  | c :: _ => c = Char.ofNat 123

/-- The sample todo object. -/
def sampleBody : String := "\x7b\"id\":9,\"task\":\"Write tests\",\"completed\":true\x7d"

/-- A world over the fresh store. -/
def World.initial : World := ⟨Store.empty, [], []⟩

/-- A world whose store holds the seed row. -/
def World.seeded : World := ⟨⟨[⟨1, "Learn Go", false⟩], 2⟩, [], []⟩

/-- An environment with no variable set. -/
def Env.unset : Env := fun _ => none

/-- A sample environment: an empty `DATABASE_URL`, an empty `POSTGRES_USER`, a host,
and nothing else. -/
def Env.sample : Env := fun key =>
  if key = "DATABASE_URL" then some ""
  else if key = "POSTGRES_USER" then some ""
  else if key = "POSTGRES_HOST" then some "db.internal"
  else none

/-- A run of `main` in which nothing fails. -/
def StartupFaults.clean : StartupFaults := ⟨none, none, none, none, none⟩

/-- A run of `main` whose count query fails. -/
def StartupFaults.countFails : StartupFaults :=
  ⟨none, none, none, some "driver: bad connection", none⟩

/-! ## Basic facts about the writer and the handlers -/

theorem httpError_fresh (msg : String) (code : Nat) :
    httpError .fresh msg code =
      ⟨[("X-Content-Type-Options", "nosniff"), ("Content-Type", "text/plain; charset=utf-8")],
        some code,
        [("X-Content-Type-Options", "nosniff"), ("Content-Type", "text/plain; charset=utf-8")],
        [.line msg]⟩ := by
  rfl

/-- An insert either fails and leaves the store as it was, or appends the row under
the next sequence value. -/
theorem Store.insert_cases (s : Store) (task : String) (c : Bool) (fault : Option Err) :
    (∃ e, s.insert task c fault = (.error e, s)) ∨
      (fault = none ∧ task.length ≤ 255 ∧
        s.insert task c fault
          = (.ok s.nextId, ⟨s.rows ++ [⟨s.nextId, task, c⟩], s.nextId + 1⟩)) := by
  cases fault with
  | some e => exact Or.inl ⟨e, rfl⟩
  | none =>
    by_cases hlen : task.length > 255
    · left
      exact ⟨tooLong, by simp [Store.insert, hlen]⟩
    · right
      exact ⟨rfl, by omega, by simp [Store.insert, hlen]⟩

theorem getTodosHandler_status (f : Faults) (σ : World) :
    (getTodosHandler f .fresh σ).1.status = some 200 ∨
      (getTodosHandler f .fresh σ).1.status = some 500 := by
  unfold getTodosHandler
  simp only
  split
  · right; rfl
  · split
    · right; rfl
    · split
      · right; rfl
      · rcases f with ⟨fs, fi, fe⟩
        cases fe with
        | none => left; rfl
        | some e => left; rfl

theorem getTodosHandler_world (f : Faults) (w : ResponseWriter) (σ : World) :
    (getTodosHandler f w σ).2.issued = σ.issued ++ [.selectTodos] ∧
      (getTodosHandler f w σ).2.store = σ.store := by
  unfold getTodosHandler
  simp only
  split
  · exact ⟨rfl, rfl⟩
  · split
    · exact ⟨rfl, rfl⟩
    · split
      · exact ⟨rfl, rfl⟩
      · split <;> exact ⟨rfl, rfl⟩

theorem createTodoHandler_status (dec : Decoder) (f : Faults) (r : Request) (σ : World) :
    (createTodoHandler dec f .fresh r σ).1.status = some 400 ∨
      (createTodoHandler dec f .fresh r σ).1.status = some 500 ∨
      (createTodoHandler dec f .fresh r σ).1.status = some 201 := by
  unfold createTodoHandler
  split
  · left; rfl
  · simp only
    split
    · right; left; rfl
    · rcases f with ⟨fs, fi, fe⟩
      cases fe with
      | none => right; right; rfl
      | some e => right; right; rfl

theorem createTodoHandler_status_of_decode (dec : Decoder) (f : Faults) (r : Request)
    (σ : World) (todo : Todo) (hdec : dec r.Body Todo.zero = .ok todo) :
    (createTodoHandler dec f .fresh r σ).1.status = some 500 ∨
      (createTodoHandler dec f .fresh r σ).1.status = some 201 := by
  unfold createTodoHandler
  rw [hdec]
  simp only
  split
  · left; rfl
  · rcases f with ⟨fs, fi, fe⟩
    cases fe with
    | none => right; rfl
    | some e => right; rfl

/-- Whenever the body decodes, the handler sends exactly the one insert, whatever
the store and the encoder do afterwards. -/
theorem createTodoHandler_issued_of_decode (dec : Decoder) (f : Faults) (w : ResponseWriter)
    (r : Request) (σ : World) (todo : Todo) (hdec : dec r.Body Todo.zero = .ok todo) :
    (createTodoHandler dec f w r σ).2.issued
      = σ.issued ++ [.insertReturning (todo.Task ++ " (intercepted locally)") todo.Completed] := by
  unfold createTodoHandler
  rw [hdec]
  simp only
  split
  · rfl
  · split <;> rfl

/-! ## C1: the insert sent by `createTodoHandler` -/

/-- C1: for every request body that decodes to a Todo with task `t` and completed
flag `c`, `createTodoHandler` adds exactly one statement to those sent to the store,
the insert with task argument `t ++ " (intercepted locally)"` and completed argument
`c`. In particular for the body `{}`, which the decoder leaves at the zero value, the
inserted task is `" (intercepted locally)"` and completed is false. -/
theorem createTodoHandler_issues_insert (dec : Decoder) (f : Faults) (w : ResponseWriter)
    (r : Request) (σ : World) (i : Int) (t : String) (c : Bool)
    (hdec : dec r.Body Todo.zero = .ok ⟨i, t, c⟩) :
    (createTodoHandler dec f w r σ).2.issued
        = σ.issued ++ [.insertReturning (t ++ " (intercepted locally)") c] ∧
      ∀ r0 : Request, r0.Body = "\x7b\x7d" → dec r0.Body Todo.zero = .ok Todo.zero →
        (createTodoHandler dec f w r0 σ).2.issued
          = σ.issued ++ [.insertReturning " (intercepted locally)" false] := by
  refine ⟨createTodoHandler_issued_of_decode dec f w r σ _ hdec, ?_⟩
  intro r0 _ h0
  exact createTodoHandler_issued_of_decode dec f w r0 σ _ h0

theorem createTodoHandler_issues_insert_witness :
    (createTodoHandler sampleDecoder Faults.clean .fresh ⟨"POST", sampleBody⟩ World.seeded).2.issued
        = World.seeded.issued ++ [.insertReturning ("Write tests" ++ " (intercepted locally)") true] ∧
      (createTodoHandler sampleDecoder Faults.clean .fresh ⟨"POST", "\x7b\x7d"⟩
        World.seeded).2.issued
        = World.seeded.issued ++ [.insertReturning " (intercepted locally)" false] :=
  ⟨(createTodoHandler_issues_insert sampleDecoder Faults.clean .fresh ⟨"POST", sampleBody⟩
      World.seeded 9 "Write tests" true rfl).1,
    (createTodoHandler_issues_insert sampleDecoder Faults.clean .fresh ⟨"POST", sampleBody⟩
      World.seeded 9 "Write tests" true rfl).2 ⟨"POST", "\x7b\x7d"⟩ rfl rfl⟩

/-! ## C2: the response to a successful POST -/

/-- C2 (as amended): for every POST whose body decodes to `(t, c)`, whose insert
succeeds returning id `n`, and whose response encoding succeeds, the response has
status 201, Content-Type `application/json`, and a body that is the one JSON document
`{id: n, task: t, completed: c}`: the task is the submitted `t` without the suffix and
the id is the one the store returned, not the id `i` of the request body. -/
theorem createTodoHandler_created (dec : Decoder) (f : Faults) (r : Request) (σ : World)
    (i n : Int) (t : String) (c : Bool)
    (hdec : dec r.Body Todo.zero = .ok ⟨i, t, c⟩)
    (hins : (σ.store.insert (t ++ " (intercepted locally)") c f.insert).1 = .ok n)
    (henc : f.encode = none) :
    (createTodoHandler dec f .fresh r σ).1.status = some 201 ∧
      (createTodoHandler dec f .fresh r σ).1.contentType = some "application/json" ∧
      (createTodoHandler dec f .fresh r σ).1.body
        = [.json (.object [("id", .num n), ("task", .str t), ("completed", .bool c)])] ∧
      n = σ.store.nextId := by
  have hn : n = σ.store.nextId := by
    rcases Store.insert_cases σ.store (t ++ " (intercepted locally)") c f.insert with
      ⟨e, he⟩ | ⟨_, _, hok⟩
    · rw [he] at hins
      cases hins
    · rw [hok] at hins
      cases hins
      rfl
  unfold createTodoHandler
  rw [hdec]
  simp only [hins, henc]
  exact ⟨rfl, rfl, rfl, hn⟩

theorem createTodoHandler_created_witness :
    (createTodoHandler sampleDecoder Faults.clean .fresh ⟨"POST", sampleBody⟩ World.seeded).1.status
        = some 201 ∧
      (createTodoHandler sampleDecoder Faults.clean .fresh ⟨"POST", sampleBody⟩
        World.seeded).1.contentType = some "application/json" ∧
      (createTodoHandler sampleDecoder Faults.clean .fresh ⟨"POST", sampleBody⟩ World.seeded).1.body
        = [.json (.object [("id", .num 2), ("task", .str "Write tests"),
            ("completed", .bool true)])] ∧
      (2 : Int) = World.seeded.store.nextId :=
  createTodoHandler_created sampleDecoder Faults.clean ⟨"POST", sampleBody⟩ World.seeded 9 2
    "Write tests" true rfl rfl rfl

/-- C2 (as stated) fails when the encoder fails: the sample body decodes to
`(Write tests, true)` and the insert succeeds returning id 2, yet the body of the
response is the error line and not the JSON document of the created todo. -/
theorem createTodoHandler_created_encode_failure :
    sampleDecoder sampleBody Todo.zero = .ok ⟨9, "Write tests", true⟩ ∧
      (World.seeded.store.insert ("Write tests" ++ " (intercepted locally)") true none).1
        = .ok 2 ∧
      (createTodoHandler sampleDecoder ⟨none, none, some "write: broken pipe"⟩ .fresh
        ⟨"POST", sampleBody⟩ World.seeded).1.body = [.line "Failed to encode created todo"] ∧
      (createTodoHandler sampleDecoder ⟨none, none, some "write: broken pipe"⟩ .fresh
        ⟨"POST", sampleBody⟩ World.seeded).1.body
        ≠ [.json (.object [("id", .num 2), ("task", .str "Write tests"),
            ("completed", .bool true)])] :=
  ⟨rfl, rfl, rfl, by decide⟩

/-! ## C5: bodies that do not decode -/

/-- C5 (as amended): for every POST whose body `Decode` rejects, `createTodoHandler`
answers status 400 with the body text `Invalid request body` and sends no insert, so
the store is unchanged; the response is 400 for no other body, and whenever it is
400 no statement was sent and the store is unchanged. -/
theorem createTodoHandler_bad_request (dec : Decoder) (f : Faults) (r : Request) (σ : World) :
    (∀ e : Err, dec r.Body Todo.zero = .error e →
        (createTodoHandler dec f .fresh r σ).1.status = some 400 ∧
        (createTodoHandler dec f .fresh r σ).1.body = [.line "Invalid request body"] ∧
        (createTodoHandler dec f .fresh r σ).2.issued = σ.issued ∧
        (createTodoHandler dec f .fresh r σ).2.store = σ.store) ∧
      ((createTodoHandler dec f .fresh r σ).1.status = some 400 →
        (createTodoHandler dec f .fresh r σ).2.issued = σ.issued ∧
        (createTodoHandler dec f .fresh r σ).2.store = σ.store) ∧
      ((createTodoHandler dec f .fresh r σ).1.status = some 400 ↔
        ∃ e : Err, dec r.Body Todo.zero = .error e) := by
  have hrej : ∀ e : Err, dec r.Body Todo.zero = .error e →
      (createTodoHandler dec f .fresh r σ).1.status = some 400 ∧
      (createTodoHandler dec f .fresh r σ).1.body = [.line "Invalid request body"] ∧
      (createTodoHandler dec f .fresh r σ).2.issued = σ.issued ∧
      (createTodoHandler dec f .fresh r σ).2.store = σ.store := by
    intro e he
    unfold createTodoHandler
    rw [he]
    exact ⟨rfl, rfl, rfl, rfl⟩
  have hconv : (createTodoHandler dec f .fresh r σ).1.status = some 400 →
      ∃ e : Err, dec r.Body Todo.zero = .error e := by
    intro h400
    cases hd : dec r.Body Todo.zero with
    | error e => exact ⟨e, rfl⟩
    | ok todo =>
      rcases createTodoHandler_status_of_decode dec f r σ todo hd with h | h
      · rw [h] at h400
        exact absurd h400 (by decide)
      · rw [h] at h400
        exact absurd h400 (by decide)
  refine ⟨hrej, ?_, hconv, ?_⟩
  · intro h400
    obtain ⟨e, he⟩ := hconv h400
    exact ⟨(hrej e he).2.2.1, (hrej e he).2.2.2⟩
  · rintro ⟨e, he⟩
    exact (hrej e he).1

theorem createTodoHandler_bad_request_witness :
    (createTodoHandler sampleDecoder Faults.clean .fresh ⟨"POST", "not json"⟩
        World.seeded).1.status = some 400 ∧
      (createTodoHandler sampleDecoder Faults.clean .fresh ⟨"POST", "not json"⟩
        World.seeded).1.body = [.line "Invalid request body"] ∧
      (createTodoHandler sampleDecoder Faults.clean .fresh ⟨"POST", "not json"⟩
        World.seeded).2.issued = World.seeded.issued ∧
      (createTodoHandler sampleDecoder Faults.clean .fresh ⟨"POST", "not json"⟩
        World.seeded).2.store = World.seeded.store :=
  (createTodoHandler_bad_request sampleDecoder Faults.clean ⟨"POST", "not json"⟩
    World.seeded).1 "invalid character in literal" rfl

/-- C5 (as stated) fails on bodies that are not a JSON object with a string task
and a boolean completed but that `Decode` accepts. The body `null` does not even
open an object, and an object followed by `trailing garbage` is not valid JSON as
a whole; both are answered with status 201, not 400, and both add a row. -/
theorem createTodoHandler_accepts_other_shapes :
    startsObject "null" = false ∧
      (createTodoHandler sampleDecoder Faults.clean .fresh ⟨"POST", "null"⟩
        World.seeded).1.status = some 201 ∧
      (createTodoHandler sampleDecoder Faults.clean .fresh ⟨"POST", "null"⟩
        World.seeded).2.issued = [.insertReturning " (intercepted locally)" false] ∧
      (createTodoHandler sampleDecoder Faults.clean .fresh ⟨"POST", "null"⟩
        World.seeded).2.store.rows
        = [⟨1, "Learn Go", false⟩, ⟨2, " (intercepted locally)", false⟩] ∧
      (createTodoHandler sampleDecoder Faults.clean .fresh
        ⟨"POST", "\x7b\"task\":\"a\"\x7d trailing garbage"⟩ World.seeded).1.status = some 201 ∧
      (createTodoHandler sampleDecoder Faults.clean .fresh
        ⟨"POST", "\x7b\"task\":\"a\"\x7d trailing garbage"⟩ World.seeded).2.store.rows
        = [⟨1, "Learn Go", false⟩, ⟨2, "a (intercepted locally)", false⟩] := by
  decide

/-! ## C6: the method dispatcher -/

/-- C6: the handler registered on `/todos` answers status 405 if and only if the
request method is neither `GET` nor `POST`; in that case the body text is
`Method not allowed`, neither handler runs, and the store, the statements sent and
the log are untouched. `GET` runs `getTodosHandler` only, which sends the one select
and leaves the store as it is, and `POST` runs `createTodoHandler` only. -/
theorem todosHandler_dispatch (dec : Decoder) (f : Faults) (r : Request) (σ : World) :
    ((todosHandler dec f .fresh r σ).1.status = some 405 ↔
        (r.Method ≠ "GET" ∧ r.Method ≠ "POST")) ∧
      (r.Method ≠ "GET" → r.Method ≠ "POST" →
        (todosHandler dec f .fresh r σ).1.body = [.line "Method not allowed"] ∧
        (todosHandler dec f .fresh r σ).2 = σ) ∧
      (r.Method = "GET" →
        todosHandler dec f .fresh r σ = getTodosHandler f .fresh σ ∧
        (todosHandler dec f .fresh r σ).2.issued = σ.issued ++ [.selectTodos] ∧
        (todosHandler dec f .fresh r σ).2.store = σ.store) ∧
      (r.Method = "POST" →
        todosHandler dec f .fresh r σ = createTodoHandler dec f .fresh r σ) := by
  refine ⟨?_, ?_, ?_, ?_⟩
  · by_cases hg : r.Method = "GET"
    · have h1 : todosHandler dec f .fresh r σ = getTodosHandler f .fresh σ := by
        simp [todosHandler, hg]
      rw [h1]
      constructor
      · intro h
        rcases getTodosHandler_status f σ with h2 | h2
        · rw [h2] at h
          exact absurd h (by decide)
        · rw [h2] at h
          exact absurd h (by decide)
      · intro h
        exact absurd hg h.1
    · by_cases hp : r.Method = "POST"
      · have h1 : todosHandler dec f .fresh r σ = createTodoHandler dec f .fresh r σ := by
          simp [todosHandler, hp]
        rw [h1]
        constructor
        · intro h
          rcases createTodoHandler_status dec f r σ with h2 | h2 | h2
          · rw [h2] at h
            exact absurd h (by decide)
          · rw [h2] at h
            exact absurd h (by decide)
          · rw [h2] at h
            exact absurd h (by decide)
        · intro h
          exact absurd hp h.2
      · have h1 : todosHandler dec f .fresh r σ
            = (httpError .fresh "Method not allowed" 405, σ) := by
          simp [todosHandler, hg, hp]
        rw [h1]
        exact ⟨fun _ => ⟨hg, hp⟩, fun _ => rfl⟩
  · intro hg hp
    have h1 : todosHandler dec f .fresh r σ
        = (httpError .fresh "Method not allowed" 405, σ) := by
      simp [todosHandler, hg, hp]
    rw [h1]
    exact ⟨rfl, rfl⟩
  · intro hg
    have h1 : todosHandler dec f .fresh r σ = getTodosHandler f .fresh σ := by
      simp [todosHandler, hg]
    rw [h1]
    exact ⟨rfl, getTodosHandler_world f .fresh σ⟩
  · intro hp
    have hg : r.Method ≠ "GET" := by
      rw [hp]
      decide
    simp [todosHandler, hg, hp]

theorem todosHandler_dispatch_witness :
    (todosHandler sampleDecoder Faults.clean .fresh ⟨"PUT", ""⟩ World.seeded).1.body
        = [.line "Method not allowed"] ∧
      (todosHandler sampleDecoder Faults.clean .fresh ⟨"PUT", ""⟩ World.seeded).2 = World.seeded :=
  (todosHandler_dispatch sampleDecoder Faults.clean ⟨"PUT", ""⟩ World.seeded).2.1
    (by decide) (by decide)

/-! ## C7: failures after the body has decoded -/

/-- When the insert fails the response is 500 with the text `Failed to create todo`,
no row is added and no todo is logged as created. -/
theorem createTodoHandler_after_insert_error (dec : Decoder) (f : Faults) (r : Request)
    (σ : World) (todo : Todo) (e : Err)
    (hdec : dec r.Body Todo.zero = .ok todo)
    (hins : (σ.store.insert (todo.Task ++ " (intercepted locally)") todo.Completed
      f.insert).1 = .error e) :
    (createTodoHandler dec f .fresh r σ).1.status = some 500 ∧
      (createTodoHandler dec f .fresh r σ).1.body = [.line "Failed to create todo"] ∧
      (createTodoHandler dec f .fresh r σ).2.store.rows = σ.store.rows ∧
      (createTodoHandler dec f .fresh r σ).2.log = σ.log ++ ["Error inserting todo: " ++ e] := by
  have hrows : (σ.store.insert (todo.Task ++ " (intercepted locally)") todo.Completed
      f.insert).2.rows = σ.store.rows := by
    rcases Store.insert_cases σ.store (todo.Task ++ " (intercepted locally)") todo.Completed
      f.insert with ⟨e1, he⟩ | ⟨_, _, hok⟩
    · rw [he]
    · rw [hok] at hins
      cases hins
  unfold createTodoHandler
  rw [hdec]
  simp only [hins]
  exact ⟨rfl, rfl, hrows, rfl⟩

/-- When the insert succeeds and the encoder fails, the status stays the 201 written
before encoding: the later `http.Error(.., 500)` finds the header committed. -/
theorem createTodoHandler_status_after_encode_error (dec : Decoder) (f : Faults) (r : Request)
    (σ : World) (todo : Todo) (n : Int) (e : Err)
    (hdec : dec r.Body Todo.zero = .ok todo)
    (hins : (σ.store.insert (todo.Task ++ " (intercepted locally)") todo.Completed
      f.insert).1 = .ok n)
    (henc : f.encode = some e) :
    (createTodoHandler dec f .fresh r σ).1.status = some 201 ∧
      (createTodoHandler dec f .fresh r σ).1.body = [.line "Failed to encode created todo"] := by
  unfold createTodoHandler
  rw [hdec]
  simp only [hins, henc]
  exact ⟨rfl, rfl⟩

/-- C7 (evaluation at the failing input): a POST with body `{}` on the fresh store,
whose insert succeeds with id 1 and whose response encoding fails, is answered
with status 201 and not 500, although the row has been stored and the handler calls
`http.Error` with code 500. -/
theorem createTodoHandler_encode_failure_is_201 :
    (createTodoHandler sampleDecoder ⟨none, none, some "write: broken pipe"⟩ .fresh
        ⟨"POST", "\x7b\x7d"⟩ World.initial).1.status = some 201 ∧
      (createTodoHandler sampleDecoder ⟨none, none, some "write: broken pipe"⟩ .fresh
        ⟨"POST", "\x7b\x7d"⟩ World.initial).1.status ≠ some 500 ∧
      (createTodoHandler sampleDecoder ⟨none, none, some "write: broken pipe"⟩ .fresh
        ⟨"POST", "\x7b\x7d"⟩ World.initial).2.store.rows
        = [⟨1, " (intercepted locally)", false⟩] := by
  decide

/-! ## The scan loop -/

theorem foldl_goAppend_some {α : Type} (l xs : List α) :
    l.foldl goAppend (some xs) = some (xs ++ l) := by
  induction l generalizing xs with
  | nil => simp
  | cons a l ih => simp [goAppend, ih]

theorem foldl_goAppend_none {α : Type} (l : List α) :
    l.foldl goAppend none = sliceOf l := by
  cases l with
  | nil => rfl
  | cons a l => simp [goAppend, sliceOf, foldl_goAppend_some]

/-- When every `Scan` succeeds the loop returns the rows in order, and the nil slice
when there is none. -/
theorem scanLoop_all_ok (l : List Todo) (acc : Slice Todo) :
    scanLoop (l.map (fun t => .ok t)) acc = .ok (l.foldl goAppend acc) := by
  induction l generalizing acc with
  | nil => rfl
  | cons a l ih => simp [scanLoop, ih]

/-- A failing `Scan` on a row that is delivered ends the loop with that error. -/
theorem scanLoop_set_error (l : List Todo) (i : Nat) (e : Err) (acc : Slice Todo)
    (hi : i < l.length) :
    scanLoop ((l.map (fun t => .ok t)).set i (.error e)) acc = .error e := by
  induction l generalizing i acc with
  | nil => simp at hi
  | cons a l ih =>
    cases i with
    | zero => simp [scanLoop]
    | succ j =>
      have hj : j < l.length := by simpa using hi
      simp [scanLoop, ih j _ hj]

theorem rows_map_ok (rows : List Row) :
    rows.map (fun r => (Except.ok r.toTodo : Except Err Todo))
      = (rows.map Row.toTodo).map (fun t => .ok t) := by
  simp

/-- A query error is answered with the fetch-failure response. -/
theorem getTodosHandler_query_error (e : Err) (fi fe : Option Err) (σ : World) :
    (getTodosHandler ⟨some (.query e), fi, fe⟩ .fresh σ).1
      = httpError .fresh "Failed to fetch todos" 500 :=
  rfl

/-- A scan error on a delivered row is answered with the process-failure response. -/
theorem getTodosHandler_scan_error (i : Nat) (e : Err) (fi fe : Option Err) (σ : World)
    (hi : i < σ.store.rows.length) :
    (getTodosHandler ⟨some (.scan i e), fi, fe⟩ .fresh σ).1
      = httpError .fresh "Failed to process todos" 500 := by
  have hl : i < (σ.store.rows.map Row.toTodo).length := by simpa using hi
  simp only [getTodosHandler, World.issue, Store.select, rows_map_ok,
    scanLoop_set_error _ i e none hl]

/-- A post-scan error is answered with its own response. -/
theorem getTodosHandler_iter_error (k : Nat) (e : Err) (fi fe : Option Err) (σ : World) :
    (getTodosHandler ⟨some (.iter k e), fi, fe⟩ .fresh σ).1
      = httpError .fresh "Error processing todos" 500 := by
  simp only [getTodosHandler, World.issue, Store.select, rows_map_ok, scanLoop_all_ok]

/-- An insert error, injected or raised by the store itself, is answered with the
creation-failure response. -/
theorem createTodoHandler_insert_error (dec : Decoder) (f : Faults) (e : Err)
    (r : Request) (σ : World) (todo : Todo)
    (hdec : dec r.Body Todo.zero = .ok todo)
    (hins : (σ.store.insert (todo.Task ++ " (intercepted locally)") todo.Completed
      f.insert).1 = .error e) :
    (createTodoHandler dec f .fresh r σ).1
      = httpError .fresh "Failed to create todo" 500 := by
  unfold createTodoHandler
  rw [hdec]
  simp only [hins]

/-! ## C8: store errors and the client -/

/-- C8 (as amended): the text of a store error never reaches the client. For every
store state and whatever the error value, a query error is answered with status 500
and the one line `Failed to fetch todos`, and a post-scan error with status 500 and
`Error processing todos`; a scan error on a row that is delivered is answered
with status 500 and `Failed to process todos`; and for every request whose body
decodes, an insert error is answered with status 500 and `Failed to create todo`.
So two runs failing at the same point with different error values get the same
response. Each failure kind has its own fixed body text. -/
theorem store_error_responses (dec : Decoder) (r : Request) (σ : World) (e1 e2 : Err)
    (f1 f2 : Faults) (fi fe : Option Err) (i k : Nat) :
    ((getTodosHandler ⟨some (.query e1), fi, fe⟩ .fresh σ).1
        = httpError .fresh "Failed to fetch todos" 500 ∧
      (getTodosHandler ⟨some (.query e2), fi, fe⟩ .fresh σ).1
        = httpError .fresh "Failed to fetch todos" 500) ∧
    (i < σ.store.rows.length →
      (getTodosHandler ⟨some (.scan i e1), fi, fe⟩ .fresh σ).1
        = httpError .fresh "Failed to process todos" 500 ∧
      (getTodosHandler ⟨some (.scan i e2), fi, fe⟩ .fresh σ).1
        = httpError .fresh "Failed to process todos" 500) ∧
    ((getTodosHandler ⟨some (.iter k e1), fi, fe⟩ .fresh σ).1
        = httpError .fresh "Error processing todos" 500 ∧
      (getTodosHandler ⟨some (.iter k e2), fi, fe⟩ .fresh σ).1
        = httpError .fresh "Error processing todos" 500) ∧
    (∀ todo : Todo, dec r.Body Todo.zero = .ok todo →
      (σ.store.insert (todo.Task ++ " (intercepted locally)") todo.Completed
        f1.insert).1 = .error e1 →
      (σ.store.insert (todo.Task ++ " (intercepted locally)") todo.Completed
        f2.insert).1 = .error e2 →
      (createTodoHandler dec f1 .fresh r σ).1
        = httpError .fresh "Failed to create todo" 500 ∧
      (createTodoHandler dec f2 .fresh r σ).1
        = httpError .fresh "Failed to create todo" 500) ∧
    ∀ msg : String, (httpError .fresh msg 500).status = some 500 ∧
      (httpError .fresh msg 500).body = [.line msg] ∧
      (httpError .fresh msg 500).contentType = some "text/plain; charset=utf-8" := by
  refine ⟨⟨rfl, rfl⟩, ?_,
    ⟨getTodosHandler_iter_error k e1 fi fe σ, getTodosHandler_iter_error k e2 fi fe σ⟩, ?_,
    fun _ => ⟨rfl, rfl, rfl⟩⟩
  · intro hi
    exact ⟨getTodosHandler_scan_error i e1 fi fe σ hi,
      getTodosHandler_scan_error i e2 fi fe σ hi⟩
  · intro todo hdec h1 h2
    exact ⟨createTodoHandler_insert_error dec f1 e1 r σ todo hdec h1,
      createTodoHandler_insert_error dec f2 e2 r σ todo hdec h2⟩

theorem store_error_responses_witness :
    ((getTodosHandler ⟨some (.scan 0 "pq: deadlock detected"), none, none⟩ .fresh
        World.seeded).1 = httpError .fresh "Failed to process todos" 500 ∧
      (getTodosHandler ⟨some (.scan 0 "driver: bad connection"), none, none⟩ .fresh
        World.seeded).1 = httpError .fresh "Failed to process todos" 500) ∧
    ((createTodoHandler sampleDecoder ⟨none, some "pq: deadlock detected", none⟩ .fresh
        ⟨"POST", sampleBody⟩ World.initial).1 = httpError .fresh "Failed to create todo" 500 ∧
      (createTodoHandler sampleDecoder ⟨none, some "driver: bad connection", none⟩ .fresh
        ⟨"POST", sampleBody⟩ World.initial).1 = httpError .fresh "Failed to create todo" 500) :=
  ⟨(store_error_responses sampleDecoder ⟨"POST", sampleBody⟩ World.seeded
      "pq: deadlock detected" "driver: bad connection"
      ⟨none, some "pq: deadlock detected", none⟩ ⟨none, some "driver: bad connection", none⟩
      none none 0 0).2.1 (by decide),
    (store_error_responses sampleDecoder ⟨"POST", sampleBody⟩ World.initial
      "pq: deadlock detected" "driver: bad connection"
      ⟨none, some "pq: deadlock detected", none⟩ ⟨none, some "driver: bad connection", none⟩
      none none 0 0).2.2.2.1 ⟨9, "Write tests", true⟩ rfl rfl rfl⟩

/-- C8 (as stated) fails in its last part: on the store with the seed row, a query
error, a scan error and a post-scan error are answered with three different
bodies, so the three kinds do not get the same response. -/
theorem get_failure_kinds_differ :
    (getTodosHandler ⟨some (.query "driver: bad connection"), none, none⟩ .fresh
        World.seeded).1.body = [.line "Failed to fetch todos"] ∧
      (getTodosHandler ⟨some (.scan 0 "driver: bad connection"), none, none⟩ .fresh
        World.seeded).1.body = [.line "Failed to process todos"] ∧
      (getTodosHandler ⟨some (.iter 1 "driver: bad connection"), none, none⟩ .fresh
        World.seeded).1.body = [.line "Error processing todos"] ∧
      (getTodosHandler ⟨some (.query "driver: bad connection"), none, none⟩ .fresh
        World.seeded).1 ≠
      (getTodosHandler ⟨some (.scan 0 "driver: bad connection"), none, none⟩ .fresh
        World.seeded).1 ∧
      (getTodosHandler ⟨some (.scan 0 "driver: bad connection"), none, none⟩ .fresh
        World.seeded).1 ≠
      (getTodosHandler ⟨some (.iter 1 "driver: bad connection"), none, none⟩ .fresh
        World.seeded).1 := by
  decide

/-! ## C9: the connection descriptor -/

/-- C9: the descriptor `initDB` opens is `DATABASE_URL` verbatim when that variable
is set and non-empty; when it is unset or empty the descriptor is
`host=H port=P user=U password=W dbname=D sslmode=disable` with the values of
`POSTGRES_HOST`, `POSTGRES_PORT`, `POSTGRES_USER`, `POSTGRES_PASSWORD`,
`POSTGRES_DBNAME`, each replaced by `localhost`, `5432`, `postgres`, the empty string,
`postgres` when unset. `getEnv` returns the fallback when the key is unset and the
value when it is set, so a variable set to the empty string yields the empty
string. -/
theorem initDB_descriptor (env : Env) (f : StartupFaults) (σ : World) :
    (∀ url : String, env "DATABASE_URL" = some url → url ≠ "" → connStr env = url) ∧
      ((env "DATABASE_URL" = none ∨ env "DATABASE_URL" = some "") →
        connStr env = "host=" ++ (env "POSTGRES_HOST").getD "localhost"
          ++ " port=" ++ (env "POSTGRES_PORT").getD "5432"
          ++ " user=" ++ (env "POSTGRES_USER").getD "postgres"
          ++ " password=" ++ (env "POSTGRES_PASSWORD").getD ""
          ++ " dbname=" ++ (env "POSTGRES_DBNAME").getD "postgres"
          ++ " sslmode=disable") ∧
      (∀ key fallback : String, env key = none → getEnv env key fallback = fallback) ∧
      (∀ key fallback value : String, env key = some value →
        getEnv env key fallback = value) ∧
      (∀ key fallback : String, env key = some "" → getEnv env key fallback = "") ∧
      (∀ pool : Pool, (initDB env f σ).1 = .ok pool → pool.dsn = connStr env) ∧
      (f.sqlOpen = none → f.ping = none → (initDB env f σ).1 = .ok ⟨connStr env⟩) := by
  have hget : ∀ key fallback : String, getEnv env key fallback = (env key).getD fallback := by
    intro key fallback
    unfold getEnv
    cases env key <;> rfl
  refine ⟨?_, ?_, ?_, ?_, ?_, ?_, ?_⟩
  · intro url hurl hne
    simp [connStr, osGetenv, hurl, hne]
  · intro h
    have hempty : osGetenv env "DATABASE_URL" = "" := by
      unfold osGetenv
      rcases h with h | h <;> rw [h]
    simp only [connStr, hempty, hget]
    simp
  · intro key fallback h
    simp [getEnv, h]
  · intro key fallback value h
    simp [getEnv, h]
  · intro key fallback h
    simp [getEnv, h]
  · intro pool h
    unfold initDB at h
    split at h
    · cases h
    · split at h
      · cases h
      · cases h
        rfl
  · intro ho hp
    simp [initDB, ho, hp]

theorem initDB_descriptor_witness :
    connStr Env.sample
      = "host=db.internal port=5432 user= password= dbname=postgres sslmode=disable" :=
  (initDB_descriptor Env.sample ⟨none, none, none, none, none⟩ World.initial).2.1
    (Or.inr rfl)

/-! ## C4: the list response -/

/-- A cursor with a scan fault whose scans all succeed delivers every row: the
fault pointed past the last row. -/
theorem set_error_all_ok (l : List Todo) (i : Nat) (e : Err)
    (h : ∀ x ∈ (l.map (fun t => (Except.ok t : Except Err Todo))).set i (.error e),
      ∃ t, x = .ok t) :
    (l.map (fun t => (Except.ok t : Except Err Todo))).set i (.error e)
      = l.map (fun t => .ok t) := by
  by_cases hi : i < l.length
  · exfalso
    have hlen : i < (l.map (fun t => (Except.ok t : Except Err Todo))).length := by
      simpa using hi
    obtain ⟨t, ht⟩ := h _ (List.mem_set _ i hlen (.error e))
    cases ht
  · exact List.set_eq_of_length_le (by simpa using hi)

/-- Once the query, the scans and the post-scan check have succeeded, the cursor
held every row of the store in order. -/
theorem cursor_all_rows (fs : Option SelectFault) (s : Store) (cur : Cursor)
    (hq : s.select fs = .ok cur)
    (hscan : ∀ x ∈ cur.scans, ∃ t, x = .ok t)
    (herr : cur.err = none) :
    cur = ⟨(s.rows.map Row.toTodo).map (fun t => .ok t), none⟩ := by
  cases fs with
  | none =>
    simp only [Store.select, rows_map_ok] at hq
    cases hq
    rfl
  | some sf =>
    cases sf with
    | query e => cases hq
    | scan i e =>
      simp only [Store.select, rows_map_ok] at hq
      cases hq
      simp only at hscan
      rw [set_error_all_ok _ i e hscan]
    | iter k e =>
      simp only [Store.select] at hq
      cases hq
      cases herr

/-- The response of `getTodosHandler` when nothing fails. -/
theorem getTodosHandler_of_cursor (f : Faults) (σ : World) (cur : Cursor)
    (hq : σ.store.select f.select = .ok cur)
    (hscan : ∀ x ∈ cur.scans, ∃ t, x = .ok t)
    (herr : cur.err = none)
    (henc : f.encode = none) :
    (getTodosHandler f .fresh σ).1
      = (ResponseWriter.fresh.setHeader "Content-Type" "application/json").Write
          (.json (encodeTodos (sliceOf (σ.store.rows.map Row.toTodo)))) := by
  have hcur := cursor_all_rows f.select σ.store cur hq hscan herr
  subst hcur
  unfold getTodosHandler
  simp only [World.issue, hq, scanLoop_all_ok, foldl_goAppend_none, henc]
  rfl

/-- When the rows have been read and the encoder fails, the 200 committed by the
failed write stays and the error line is all the body holds. -/
theorem getTodosHandler_encode_failed (f : Faults) (σ : World) (cur : Cursor) (e : Err)
    (hq : σ.store.select f.select = .ok cur)
    (hscan : ∀ x ∈ cur.scans, ∃ t, x = .ok t)
    (herr : cur.err = none)
    (henc : f.encode = some e) :
    (getTodosHandler f .fresh σ).1.status = some 200 ∧
      (getTodosHandler f .fresh σ).1.body = [.line "Failed to encode todos"] := by
  have hcur := cursor_all_rows f.select σ.store cur hq hscan herr
  subst hcur
  unfold getTodosHandler
  simp only [World.issue, hq, scanLoop_all_ok, foldl_goAppend_none, henc]
  exact ⟨rfl, rfl⟩

/-- C4 (as amended): for every store state in which the query, all row scans and
the post-scan check succeed, and the response encoding succeeds, `getTodosHandler`
answers status 200 with Content-Type `application/json` and one JSON document: the
array with one `{id, task, completed}` element per row of the store, in the order of
the store, none dropped or duplicated; when the store has no row the document is
`null` and not the empty array. -/
theorem getTodosHandler_lists_rows (f : Faults) (σ : World) (cur : Cursor)
    (hq : σ.store.select f.select = .ok cur)
    (hscan : ∀ x ∈ cur.scans, ∃ t, x = .ok t)
    (herr : cur.err = none)
    (henc : f.encode = none) :
    (getTodosHandler f .fresh σ).1.status = some 200 ∧
      (getTodosHandler f .fresh σ).1.contentType = some "application/json" ∧
      (σ.store.rows ≠ [] →
        (getTodosHandler f .fresh σ).1.body
          = [.json (.array (σ.store.rows.map (fun r =>
              [("id", .num r.id), ("task", .str r.task), ("completed", .bool r.completed)])))]) ∧
      (σ.store.rows = [] →
        (getTodosHandler f .fresh σ).1.body = [.json (.scalar .null)] ∧
        (getTodosHandler f .fresh σ).1.body ≠ [.json (.array [])]) := by
  rw [getTodosHandler_of_cursor f σ cur hq hscan herr henc]
  refine ⟨rfl, rfl, ?_, ?_⟩
  · intro hne
    cases hrows : σ.store.rows with
    | nil => exact absurd hrows hne
    | cons a l =>
      simp [ResponseWriter.Write, ResponseWriter.WriteHeader, ResponseWriter.setHeader,
        ResponseWriter.fresh, sliceOf, encodeTodos, todoFields, Row.toTodo]
  · intro hnil
    rw [hnil]
    exact ⟨rfl, by decide⟩

theorem getTodosHandler_lists_rows_witness :
    (getTodosHandler Faults.clean .fresh World.seeded).1.status = some 200 ∧
      (getTodosHandler Faults.clean .fresh World.seeded).1.contentType
        = some "application/json" ∧
      (World.seeded.store.rows ≠ [] →
        (getTodosHandler Faults.clean .fresh World.seeded).1.body
          = [.json (.array (World.seeded.store.rows.map (fun r =>
              [("id", .num r.id), ("task", .str r.task), ("completed", .bool r.completed)])))]) ∧
      (World.seeded.store.rows = [] →
        (getTodosHandler Faults.clean .fresh World.seeded).1.body = [.json (.scalar .null)] ∧
        (getTodosHandler Faults.clean .fresh World.seeded).1.body ≠ [.json (.array [])]) :=
  getTodosHandler_lists_rows Faults.clean World.seeded
    ⟨[.ok ⟨1, "Learn Go", false⟩], none⟩ rfl
    (by
      intro x hx
      exact ⟨⟨1, "Learn Go", false⟩, by simpa using hx⟩)
    rfl rfl

/-- C4 (as stated) fails when the iteration reports an error after the scans: on
the store with the seed row the query succeeds, the one delivered row scans, and
`rows.Err()` is non-nil; the answer is status 500 with an error line, not 200 with
the JSON list. -/
theorem getTodosHandler_post_scan_error :
    (∃ cur : Cursor, World.seeded.store.select (some (.iter 1 "driver: bad connection"))
        = .ok cur ∧ cur.scans = [.ok ⟨1, "Learn Go", false⟩]) ∧
      (getTodosHandler ⟨some (.iter 1 "driver: bad connection"), none, none⟩ .fresh
        World.seeded).1.status = some 500 ∧
      (getTodosHandler ⟨some (.iter 1 "driver: bad connection"), none, none⟩ .fresh
        World.seeded).1.body = [.line "Error processing todos"] :=
  ⟨⟨_, rfl, rfl⟩, by decide, by decide⟩

/-! ## C3: a POST followed by a GET -/

/-- The response of `getTodosHandler` when no error is injected. -/
theorem getTodosHandler_clean (σ : World) :
    (getTodosHandler Faults.clean .fresh σ).1
      = (ResponseWriter.fresh.setHeader "Content-Type" "application/json").Write
          (.json (encodeTodos (sliceOf (σ.store.rows.map Row.toTodo)))) := by
  refine getTodosHandler_of_cursor Faults.clean σ
    ⟨σ.store.rows.map (fun r : Row => (Except.ok r.toTodo : Except Err Todo)), none⟩
    rfl ?_ rfl rfl
  intro x hx
  simp only [List.mem_map] at hx
  obtain ⟨row, _, hrow⟩ := hx
  exact ⟨row.toTodo, hrow.symm⟩

/-- Every GET either ends with one error line as its whole body, or writes the one
JSON document of all the rows of the store. -/
theorem getTodosHandler_body_cases (g : Faults) (σ : World) :
    (∃ msg : String, (getTodosHandler g .fresh σ).1.body = [.line msg]) ∨
      (getTodosHandler g .fresh σ).1
        = (ResponseWriter.fresh.setHeader "Content-Type" "application/json").Write
            (.json (encodeTodos (sliceOf (σ.store.rows.map Row.toTodo)))) := by
  have hall : ∀ x ∈ σ.store.rows.map (fun r : Row => (Except.ok r.toTodo : Except Err Todo)),
      ∃ t, x = .ok t := by
    intro x hx
    simp only [List.mem_map] at hx
    obtain ⟨row, _, hrow⟩ := hx
    exact ⟨row.toTodo, hrow.symm⟩
  have key : ∀ f : Faults,
      σ.store.select f.select
        = .ok ⟨σ.store.rows.map (fun r : Row => (Except.ok r.toTodo : Except Err Todo)), none⟩ →
      (∃ msg : String, (getTodosHandler f .fresh σ).1.body = [.line msg]) ∨
        (getTodosHandler f .fresh σ).1
          = (ResponseWriter.fresh.setHeader "Content-Type" "application/json").Write
              (.json (encodeTodos (sliceOf (σ.store.rows.map Row.toTodo)))) := by
    intro f hq
    cases henc : f.encode with
    | none => exact Or.inr (getTodosHandler_of_cursor f σ _ hq hall rfl henc)
    | some e => exact Or.inl ⟨_, (getTodosHandler_encode_failed f σ _ e hq hall rfl henc).2⟩
  rcases g with ⟨gs, gi, ge⟩
  cases gs with
  | none => exact key _ rfl
  | some sf =>
    cases sf with
    | query e =>
      left
      rw [getTodosHandler_query_error]
      exact ⟨_, rfl⟩
    | scan i e =>
      by_cases hi : i < σ.store.rows.length
      · left
        rw [getTodosHandler_scan_error i e gi ge σ hi]
        exact ⟨_, rfl⟩
      · have hset : (σ.store.rows.map
            (fun r : Row => (Except.ok r.toTodo : Except Err Todo))).set i (.error e)
            = σ.store.rows.map (fun r : Row => (Except.ok r.toTodo : Except Err Todo)) :=
          List.set_eq_of_length_le (by simpa using hi)
        exact key _ (by simp only [Store.select, hset])
    | iter k e =>
      left
      rw [getTodosHandler_iter_error]
      exact ⟨_, rfl⟩

/-- A GET whose body is one JSON document has written the document of all the rows
of the store, with status 200. -/
theorem getTodosHandler_of_json_body (g : Faults) (σ : World) (doc : Json)
    (h : (getTodosHandler g .fresh σ).1.body = [.json doc]) :
    doc = encodeTodos (sliceOf (σ.store.rows.map Row.toTodo)) ∧
      (getTodosHandler g .fresh σ).1.status = some 200 := by
  rcases getTodosHandler_body_cases g σ with ⟨msg, hmsg⟩ | hok
  · rw [hmsg] at h
    simp at h
  · rw [hok] at h ⊢
    have hb : ((ResponseWriter.fresh.setHeader "Content-Type" "application/json").Write
        (.json (encodeTodos (sliceOf (σ.store.rows.map Row.toTodo))))).body
        = [.json (encodeTodos (sliceOf (σ.store.rows.map Row.toTodo)))] := rfl
    rw [hb] at h
    simp only [List.cons.injEq, Chunk.json.injEq, and_true] at h
    exact ⟨h.symm, rfl⟩

theorem sliceOf_append_singleton {α : Type} (l : List α) (x : α) :
    sliceOf (l ++ [x]) = some (l ++ [x]) := by
  cases l <;> rfl

/-- A POST answered with the JSON document of `(n, t, c)` has decoded `(t, c)`, and
its insert has appended the row `(n, t ++ suffix, c)` under the next sequence
value `n`. -/
theorem createTodoHandler_success_inv (dec : Decoder) (f : Faults) (r : Request) (σ : World)
    (n : Int) (t : String) (c : Bool)
    (hbody : (createTodoHandler dec f .fresh r σ).1.body = [.json (encodeTodo ⟨n, t, c⟩)]) :
    (createTodoHandler dec f .fresh r σ).2.store
        = ⟨σ.store.rows ++ [⟨n, t ++ " (intercepted locally)", c⟩], n + 1⟩ ∧
      n = σ.store.nextId := by
  cases hd : dec r.Body Todo.zero with
  | error e =>
    unfold createTodoHandler at hbody
    rw [hd] at hbody
    simp [httpError_fresh] at hbody
  | ok todo =>
    rcases Store.insert_cases σ.store (todo.Task ++ " (intercepted locally)") todo.Completed
      f.insert with ⟨e, he⟩ | ⟨_, _, hok⟩
    · unfold createTodoHandler at hbody
      rw [hd] at hbody
      simp [he, httpError_fresh] at hbody
    · cases henc : f.encode with
      | some e =>
        have h2 := (createTodoHandler_status_after_encode_error dec f r σ todo σ.store.nextId e hd
          (by rw [hok]) henc).2
        rw [h2] at hbody
        simp at hbody
      | none =>
        unfold createTodoHandler at hbody ⊢
        rw [hd] at hbody ⊢
        simp only [hok, henc] at hbody ⊢
        simp only [jsonEncode, ResponseWriter.Write, ResponseWriter.WriteHeader,
          ResponseWriter.setHeader, ResponseWriter.fresh, encodeTodo, todoFields,
          List.nil_append, List.cons.injEq, Chunk.json.injEq, Json.object.injEq,
          Prod.mk.injEq, JScalar.num.injEq, JScalar.str.injEq, JScalar.bool.injEq,
          true_and, and_true] at hbody
        obtain ⟨hn, ht, hc⟩ := hbody
        simp only [World.logf, World.issue]
        rw [← hn, ← ht, ← hc]
        exact ⟨rfl, rfl⟩

/-- C3: over a store whose ids are assigned serially and never reused, for every
store state and every successful POST of `(t, c)` answered with id `n`, the GET that
follows immediately, when nothing fails, answers status 200 with the JSON array of
a list that has exactly one element with id `n`, the element
`(n, t ++ " (intercepted locally)", c)`; the list is the rows a GET returned before the
POST, unchanged and in the same order, followed by that element. Whatever fails in
the following GET, a JSON document in its body is that same array. -/
theorem post_then_get (dec : Decoder) (f : Faults) (r : Request) (σ : World)
    (n : Int) (t : String) (c : Bool)
    (hwf : σ.store.WF)
    (hbody : (createTodoHandler dec f .fresh r σ).1.body = [.json (encodeTodo ⟨n, t, c⟩)]) :
    ∃ before after : List Todo,
      before = σ.store.rows.map Row.toTodo ∧
      (getTodosHandler Faults.clean .fresh σ).1.body = [.json (encodeTodos (sliceOf before))] ∧
      (getTodosHandler Faults.clean .fresh (createTodoHandler dec f .fresh r σ).2).1.status
        = some 200 ∧
      (getTodosHandler Faults.clean .fresh (createTodoHandler dec f .fresh r σ).2).1.body
        = [.json (.array (after.map todoFields))] ∧
      (∀ (g : Faults) (doc : Json),
        (getTodosHandler g .fresh (createTodoHandler dec f .fresh r σ).2).1.body = [.json doc] →
        doc = .array (after.map todoFields)) ∧
      after = before ++ [⟨n, t ++ " (intercepted locally)", c⟩] ∧
      after.filter (fun x => decide (x.ID = n))
        = [⟨n, t ++ " (intercepted locally)", c⟩] := by
  obtain ⟨hstore, hn⟩ := createTodoHandler_success_inv dec f r σ n t c hbody
  have hmap : (σ.store.rows ++ [(⟨n, t ++ " (intercepted locally)", c⟩ : Row)]).map Row.toTodo
      = σ.store.rows.map Row.toTodo ++ [⟨n, t ++ " (intercepted locally)", c⟩] := by
    simp [Row.toTodo]
  refine ⟨σ.store.rows.map Row.toTodo,
    σ.store.rows.map Row.toTodo ++ [⟨n, t ++ " (intercepted locally)", c⟩], rfl, ?_, ?_, ?_, ?_,
    rfl, ?_⟩
  · rw [getTodosHandler_clean]
    rfl
  · rw [getTodosHandler_clean]
    rfl
  · rw [getTodosHandler_clean, hstore]
    simp only [hmap, sliceOf_append_singleton]
    rfl
  · intro g doc hg
    rw [(getTodosHandler_of_json_body g _ doc hg).1, hstore]
    simp only [hmap, sliceOf_append_singleton]
    rfl
  · have hold : (σ.store.rows.map Row.toTodo).filter (fun x => decide (x.ID = n)) = [] := by
      rw [List.filter_eq_nil_iff]
      intro x hx
      simp only [List.mem_map] at hx
      obtain ⟨row, hrow, hx⟩ := hx
      have hlt := hwf row hrow
      subst hx
      simp only [Row.toTodo, decide_eq_true_eq]
      omega
    rw [List.filter_append, hold]
    simp

theorem post_then_get_witness :
    ∃ before after : List Todo,
      before = World.seeded.store.rows.map Row.toTodo ∧
      (getTodosHandler Faults.clean .fresh World.seeded).1.body
        = [.json (encodeTodos (sliceOf before))] ∧
      (getTodosHandler Faults.clean .fresh (createTodoHandler sampleDecoder Faults.clean .fresh
        ⟨"POST", sampleBody⟩ World.seeded).2).1.status = some 200 ∧
      (getTodosHandler Faults.clean .fresh (createTodoHandler sampleDecoder Faults.clean .fresh
        ⟨"POST", sampleBody⟩ World.seeded).2).1.body
        = [.json (.array (after.map todoFields))] ∧
      (∀ (g : Faults) (doc : Json),
        (getTodosHandler g .fresh (createTodoHandler sampleDecoder Faults.clean .fresh
          ⟨"POST", sampleBody⟩ World.seeded).2).1.body = [.json doc] →
        doc = .array (after.map todoFields)) ∧
      after = before ++ [⟨2, "Write tests" ++ " (intercepted locally)", true⟩] ∧
      after.filter (fun x => decide (x.ID = 2))
        = [⟨2, "Write tests" ++ " (intercepted locally)", true⟩] :=
  post_then_get sampleDecoder Faults.clean ⟨"POST", sampleBody⟩ World.seeded 2 "Write tests" true
    (by
      intro row hrow
      have h1 : row = ⟨1, "Learn Go", false⟩ := by simpa [World.seeded] using hrow
      rw [h1]
      decide)
    rfl

/-! ## C10: the seed row -/

/-- The seed step sends its insert exactly when the count query succeeds on an
empty table. -/
theorem seedStep_inserts (f : StartupFaults) (σ : World)
    (hc : f.count = none) (hrows : σ.store.rows = []) :
    seedInserts (seedStep f σ) = seedInserts σ + 1 ∧
      (f.seed = none → (seedStep f σ).store = ⟨[seedRow σ.store], σ.store.nextId + 1⟩) := by
  rcases f with ⟨fo, fp, fd, fc, fsd⟩
  simp only at hc
  subst hc
  rcases σ with ⟨⟨rows, next⟩, issued, log⟩
  simp only at hrows
  subst hrows
  have hlen : "Learn Go".length = 8 := by decide
  cases fsd with
  | none =>
    constructor
    · simp [seedStep, seedInserts, World.issue, World.logf, Store.count, Store.insert,
        List.count_append, hlen]
    · intro _
      simp [seedStep, seedRow, World.issue, World.logf, Store.count, Store.insert, hlen]
  | some e =>
    constructor
    · simp [seedStep, seedInserts, World.issue, World.logf, Store.count, Store.insert,
        List.count_append]
    · intro h
      cases h

/-- Otherwise the seed step sends the count query only. -/
theorem seedStep_skips (f : StartupFaults) (σ : World)
    (h : ¬ (f.count = none ∧ σ.store.rows = [])) :
    seedStep f σ = σ.issue .countTodos := by
  rcases f with ⟨fo, fp, fd, fc, fsd⟩
  cases fc with
  | some e => rfl
  | none =>
    have hne : σ.store.rows ≠ [] := fun hr => h ⟨rfl, hr⟩
    have hlen : (σ.store.rows.length : Int) ≠ 0 := by
      have : σ.store.rows.length ≠ 0 := fun h0 => hne (List.length_eq_zero.mp h0)
      omega
    simp [seedStep, World.issue, Store.count, hlen]

theorem seedInserts_issue_count (σ : World) :
    seedInserts (σ.issue .countTodos) = seedInserts σ := by
  simp [seedInserts, World.issue, List.count_append]

theorem seedInserts_issue_ddl (σ : World) :
    seedInserts (σ.issue .schemaDDL) = seedInserts σ := by
  simp [seedInserts, World.issue, List.count_append]

/-- A run whose seed step is not reached, or skips, leaves the store and the number
of seed inserts as they were. -/
theorem startup_unchanged (env : Env) (f : StartupFaults) (σ : World)
    (h : ¬ (f.countsRows ∧ σ.store.rows = [])) :
    (startup env f σ).2.store = σ.store ∧
      seedInserts (startup env f σ).2 = seedInserts σ := by
  rcases f with ⟨fo, fp, fd, fc, fsd⟩
  cases fo with
  | some e => exact ⟨rfl, rfl⟩
  | none =>
    cases fp with
    | some e => exact ⟨rfl, rfl⟩
    | none =>
      cases fd with
      | some e => exact ⟨rfl, seedInserts_issue_ddl _⟩
      | none =>
        have hskip : ¬ ((⟨none, none, none, fc, fsd⟩ : StartupFaults).count = none ∧
            ((σ.logf "Successfully connected to PostgreSQL").issue .schemaDDL).store.rows
              = []) := by
          intro hh
          exact h ⟨⟨rfl, rfl, rfl, hh.1⟩, hh.2⟩
        have hrun : (startup env ⟨none, none, none, fc, fsd⟩ σ).2
            = seedStep ⟨none, none, none, fc, fsd⟩
                ((σ.logf "Successfully connected to PostgreSQL").issue .schemaDDL) := rfl
        rw [hrun, seedStep_skips _ _ hskip]
        exact ⟨rfl, by rw [seedInserts_issue_count, seedInserts_issue_ddl]; rfl⟩

/-- A run that reaches the seed step on an empty table with a succeeding count
query sends the seed insert once. -/
theorem startup_seeds (env : Env) (f : StartupFaults) (σ : World)
    (hf : f.countsRows) (hrows : σ.store.rows = []) :
    seedInserts (startup env f σ).2 = seedInserts σ + 1 ∧
      (f.seed = none → (startup env f σ).2.store = ⟨[seedRow σ.store], σ.store.nextId + 1⟩) := by
  rcases f with ⟨fo, fp, fd, fc, fsd⟩
  obtain ⟨h1, h2, h3, h4⟩ := hf
  simp only at h1 h2 h3 h4
  subst h1 h2 h3 h4
  have hrun : (startup env ⟨none, none, none, none, fsd⟩ σ).2
      = seedStep ⟨none, none, none, none, fsd⟩
          ((σ.logf "Successfully connected to PostgreSQL").issue .schemaDDL) := rfl
  rw [hrun]
  obtain ⟨ha, hb⟩ := seedStep_inserts ⟨none, none, none, none, fsd⟩
    ((σ.logf "Successfully connected to PostgreSQL").issue .schemaDDL) rfl hrows
  refine ⟨?_, hb⟩
  rw [ha, seedInserts_issue_ddl]
  rfl

/-- Runs against a table that already has a row never send the seed insert. -/
theorem startups_nonempty (env : Env) (fs : List StartupFaults) (σ : World)
    (hrows : σ.store.rows ≠ []) :
    (startups env fs σ).store = σ.store ∧
      seedInserts (startups env fs σ) = seedInserts σ := by
  induction fs generalizing σ with
  | nil => exact ⟨rfl, rfl⟩
  | cons f fs ih =>
    obtain ⟨hs, hn⟩ := startup_unchanged env f σ (fun h => hrows h.2)
    have hrows2 : (startup env f σ).2.store.rows ≠ [] := by
      rw [hs]
      exact hrows
    obtain ⟨hs2, hn2⟩ := ih (startup env f σ).2 hrows2
    exact ⟨by rw [startups, hs2, hs], by rw [startups, hn2, hn]⟩

/-- With seed inserts succeeding, any number of runs sends the seed insert at most
once. -/
theorem startups_at_most_once (env : Env) (fs : List StartupFaults) (σ : World)
    (hseed : ∀ f ∈ fs, f.seed = none) :
    seedInserts (startups env fs σ) ≤ seedInserts σ + 1 := by
  induction fs generalizing σ with
  | nil => exact Nat.le_succ _
  | cons f fs ih =>
    have hseed2 : ∀ g ∈ fs, g.seed = none := fun g hg => hseed g (List.mem_cons_of_mem f hg)
    by_cases h : f.countsRows ∧ σ.store.rows = []
    · obtain ⟨ha, hb⟩ := startup_seeds env f σ h.1 h.2
      have hstore := hb (hseed f (List.mem_cons_self f fs))
      have hne : (startup env f σ).2.store.rows ≠ [] := by
        rw [hstore]
        simp
      obtain ⟨_, hn⟩ := startups_nonempty env fs (startup env f σ).2 hne
      rw [startups, hn, ha]
    · obtain ⟨_, hn⟩ := startup_unchanged env f σ h
      have := ih (startup env f σ).2 hseed2
      rw [startups]
      omega

/-- With seed inserts succeeding, the runs on an empty table send the seed insert
exactly once as soon as one of them gets to count the rows. -/
theorem startups_exactly_once (env : Env) (fs : List StartupFaults) (σ : World)
    (hseed : ∀ f ∈ fs, f.seed = none) (hrows : σ.store.rows = [])
    (hrun : ∃ f ∈ fs, f.countsRows) :
    seedInserts (startups env fs σ) = seedInserts σ + 1 ∧
      (startups env fs σ).store.rows = [seedRow σ.store] := by
  induction fs generalizing σ with
  | nil =>
    obtain ⟨f, hf, _⟩ := hrun
    simp at hf
  | cons f fs ih =>
    have hseed2 : ∀ g ∈ fs, g.seed = none := fun g hg => hseed g (List.mem_cons_of_mem f hg)
    by_cases h : f.countsRows
    · obtain ⟨ha, hb⟩ := startup_seeds env f σ h hrows
      have hstore := hb (hseed f (List.mem_cons_self f fs))
      have hne : (startup env f σ).2.store.rows ≠ [] := by
        rw [hstore]
        simp
      obtain ⟨hs, hn⟩ := startups_nonempty env fs (startup env f σ).2 hne
      exact ⟨by rw [startups, hn, ha], by rw [startups, hs, hstore]⟩
    · obtain ⟨hs, hn⟩ := startup_unchanged env f σ (fun hh => h hh.1)
      have hrun2 : ∃ g ∈ fs, g.countsRows := by
        obtain ⟨g, hg, hgc⟩ := hrun
        rcases List.mem_cons.mp hg with hgf | hgfs
        · subst hgf
          exact absurd hgc h
        · exact ⟨g, hgfs, hgc⟩
      have hrows2 : (startup env f σ).2.store.rows = [] := by
        rw [hs]
        exact hrows
      obtain ⟨h1, h2⟩ := ih (startup env f σ).2 hseed2 hrows2 hrun2
      exact ⟨by rw [startups, h1, hn], by rw [startups, h2, hs]⟩

theorem count_eq_zero_iff (s : Store) (fault : Option Err) :
    s.count fault = .ok 0 ↔ (fault = none ∧ s.rows = []) := by
  cases fault with
  | some e => simp [Store.count]
  | none =>
    simp only [Store.count, Except.ok.injEq, true_and]
    constructor
    · intro h
      exact List.length_eq_zero.mp (by omega)
    · intro h
      rw [h]
      rfl

/-- C10 (as amended): the seed step sends the insert of the single row
(`Learn Go`, false) if and only if the count query succeeds and returns 0; a seed
insert that succeeds leaves that row as the only one; otherwise the step leaves the
store unchanged. For every initial store state and any number of successive runs
of the startup sequence with seed inserts succeeding, the seed insert is sent at
most once in total, and exactly once when the store starts empty and at least one
run reaches the seed step with its count query succeeding. A run that gets past
the connection and the schema goes on to serve whatever the count query and the
seed insert do, so a failed seed insert does not abort startup. -/
theorem seed_at_most_once (env : Env) (fs : List StartupFaults) (f : StartupFaults) (σ : World)
    (hseed : ∀ g ∈ fs, g.seed = none) :
    (seedInserts (seedStep f σ) = seedInserts σ + 1 ↔ σ.store.count f.count = .ok 0) ∧
      (σ.store.count f.count = .ok 0 → f.seed = none →
        (seedStep f σ).store.rows = [⟨σ.store.nextId, "Learn Go", false⟩]) ∧
      (σ.store.count f.count ≠ .ok 0 →
        (seedStep f σ).store = σ.store ∧ seedInserts (seedStep f σ) = seedInserts σ) ∧
      seedInserts (startups env fs σ) ≤ seedInserts σ + 1 ∧
      (σ.store.rows = [] → (∃ g ∈ fs, g.countsRows) →
        seedInserts (startups env fs σ) = seedInserts σ + 1 ∧
        (startups env fs σ).store.rows = [⟨σ.store.nextId, "Learn Go", false⟩]) ∧
      (f.sqlOpen = none → f.ping = none → f.ddl = none →
        (startup env f σ).1 = .serving) := by
  have hskip : σ.store.count f.count ≠ .ok 0 →
      (seedStep f σ).store = σ.store ∧ seedInserts (seedStep f σ) = seedInserts σ := by
    intro h
    have h2 : ¬ (f.count = none ∧ σ.store.rows = []) :=
      fun hh => h ((count_eq_zero_iff σ.store f.count).mpr hh)
    rw [seedStep_skips f σ h2]
    exact ⟨rfl, seedInserts_issue_count σ⟩
  refine ⟨?_, ?_, hskip, startups_at_most_once env fs σ hseed, ?_, ?_⟩
  · constructor
    · intro h
      by_contra hne
      have := (hskip hne).2
      omega
    · intro h
      obtain ⟨hc, hr⟩ := (count_eq_zero_iff σ.store f.count).mp h
      exact (seedStep_inserts f σ hc hr).1
  · intro h hs
    obtain ⟨hc, hr⟩ := (count_eq_zero_iff σ.store f.count).mp h
    rw [(seedStep_inserts f σ hc hr).2 hs]
    rfl
  · intro hr hrun
    exact startups_exactly_once env fs σ hseed hr hrun
  · intro ho hp hd
    simp [startup, initDB, initSchema, ho, hp, hd]

theorem seed_at_most_once_witness :
    seedInserts (startups Env.unset [StartupFaults.countFails, StartupFaults.clean,
        StartupFaults.clean] World.initial) = seedInserts World.initial + 1 ∧
      (startups Env.unset [StartupFaults.countFails, StartupFaults.clean,
        StartupFaults.clean] World.initial).store.rows
        = [⟨World.initial.store.nextId, "Learn Go", false⟩] :=
  (seed_at_most_once Env.unset
    [StartupFaults.countFails, StartupFaults.clean, StartupFaults.clean]
    StartupFaults.clean World.initial (by decide)).2.2.2.2.1 rfl
    ⟨StartupFaults.clean, by decide, ⟨rfl, rfl, rfl, rfl⟩⟩

/-- C10 (as stated) fails when the count query fails: on the empty store, one run
of the startup sequence whose count query returns an error goes on to serve
without sending the seed insert, so with no insert failing the seed insertion
happens zero times and not exactly once. -/
theorem seed_skipped_when_count_fails :
    World.initial.store.rows = [] ∧
      (∀ g ∈ [StartupFaults.countFails], g.seed = none) ∧
      (startup Env.unset StartupFaults.countFails World.initial).1 = .serving ∧
      seedInserts (startups Env.unset [StartupFaults.countFails] World.initial) = 0 ∧
      (startups Env.unset [StartupFaults.countFails] World.initial).store.rows = [] := by
  decide

/-! ## The id invariant -/

/-- The fresh store has serially assigned ids. -/
theorem Store.empty_WF : Store.empty.WF := by
  intro row hrow
  simp [Store.empty] at hrow

/-- An insert keeps ids serially assigned. -/
theorem Store.insert_WF (s : Store) (task : String) (c : Bool) (fault : Option Err)
    (h : s.WF) : (s.insert task c fault).2.WF := by
  rcases Store.insert_cases s task c fault with ⟨e, he⟩ | ⟨_, _, hok⟩
  · rw [he]
    exact h
  · rw [hok]
    intro row hrow
    simp only [List.mem_append, List.mem_singleton] at hrow
    rcases hrow with hrow | hrow
    · have := h row hrow
      simp only
      omega
    · subst hrow
      simp only
      omega

/-- A POST keeps ids serially assigned. -/
theorem createTodoHandler_WF (dec : Decoder) (f : Faults) (w : ResponseWriter) (r : Request)
    (σ : World) (h : σ.store.WF) : (createTodoHandler dec f w r σ).2.store.WF := by
  unfold createTodoHandler
  split
  · exact h
  · simp only
    split
    · exact Store.insert_WF _ _ _ _ h
    · split <;> exact Store.insert_WF _ _ _ _ h

end TodoService
